import Mathlib

/-!
Verification of the secret-store document-encryption helpers
(`src/rpc/src/v1/helpers/secretstore.rs`).

Byte buffers (`Bytes`) are embedded as `List Nat`.  The external
symmetric cipher (`crypto::aes`) and the external elliptic-curve
arithmetic (`ethkey::math`) are parameters: a `Cipher` structure for the
block cipher and an `ECMath` structure for scalar/point operations, as
the spec treats both as external primitives composed by this core.
The Rust functions write cipher output into a pre-sized zero buffer;
`writeInto` models that destination-buffer semantics.  The OS random
source is injected as a byte generator `rng : Nat → Nat`.  A Rust panic
(out-of-bounds index) is modelled as `Option.none` on the operations
that can reach one.
-/

namespace SecretStore

/-- Initialization vector length (`INIT_VEC_LEN` in the source). -/
def INIT_VEC_LEN : Nat := 16

/-- RPC-level errors produced by the helpers.  `invalidParams` carries the
parameter name and the description, matching `errors::invalid_params`;
`encryptionError` wraps the text of an arithmetic failure, matching
`errors::encryption_error`. -/
inductive RpcError where
  | invalidParams (param : String) (details : String)
  | encryptionError (details : String)
  deriving DecidableEq, Repr

/-- The error `into_document_key` returns on bad key length
(`errors::invalid_params("key", "invalid public key length")`). -/
def invalidKeyLengthError : RpcError :=
  RpcError.invalidParams "key" "invalid public key length"

/-- The error `decrypt_document` returns on a short buffer
(`errors::invalid_params("encrypted_document", "invalid encrypted data")`). -/
def invalidCiphertextError : RpcError :=
  RpcError.invalidParams "encrypted_document" "invalid encrypted data"

/-- External symmetric cipher (`crypto::aes::encrypt` / `decrypt`):
each takes key, iv and input buffer and yields the output bytes that the
primitive writes. -/
structure Cipher where
  encrypt : List Nat → List Nat → List Nat → List Nat
  decrypt : List Nat → List Nat → List Nat → List Nat

/-- Writing `src` into the pre-sized destination buffer `dest`: the
first `min src.length dest.length` bytes of `dest` are overwritten by
`src`, and the buffer keeps its size (`crypto::aes` writes into a
caller-sized `&mut` buffer). -/
def writeInto (dest src : List Nat) : List Nat :=
  src.take dest.length ++ dest.drop src.length

/-- External elliptic-curve arithmetic over abstract point (`P`) and
scalar (`S`) types: `secretAdd` is `Secret::add` (addition modulo the
group order, fallible), `publicMulSecret` is `math::public_mul_secret`,
`publicAdd` is `math::public_add`, and `toBytes` is `Public::to_vec`
(the 64-byte point encoding). -/
structure ECMath (P S : Type) where
  secretAdd : S → S → Except String S
  publicMulSecret : P → S → Except String P
  publicAdd : P → P → Except String P
  toBytes : P → List Nat

/-- Fresh 16-byte initialization vector drawn from the injected random
source (`initialization_vector` in the source, which fills a
`[u8; INIT_VEC_LEN]` from `OsRng`). -/
def initialization_vector (rng : Nat → Nat) : List Nat :=
  (List.range INIT_VEC_LEN).map rng

/-- Key derivation (`into_document_key`): require exactly 64 bytes of
key material, then take its first `INIT_VEC_LEN` (16) bytes. -/
def into_document_key (key : List Nat) : Except RpcError (List Nat) :=
  if key.length ≠ 64 then
    Except.error invalidKeyLengthError
  else
    Except.ok (key.take INIT_VEC_LEN)

/-- `encrypt_document`: derive the document key, draw a fresh IV,
encrypt into a zero buffer of the document's length, and append the IV. -/
def encrypt_document (C : Cipher) (rng : Nat → Nat) (key document : List Nat) :
    Except RpcError (List Nat) :=
  match into_document_key key with
  | Except.error e => Except.error e
  | Except.ok k =>
    let iv := initialization_vector rng
    let encrypted_document :=
      writeInto (List.replicate document.length 0) (C.encrypt k iv document)
    Except.ok (encrypted_document ++ iv)

/-- `decrypt_document`: reject buffers shorter than `INIT_VEC_LEN`,
derive the document key, split the trailing 16 bytes off as the IV and
decrypt the remainder into a zero buffer of its length. -/
def decrypt_document (C : Cipher) (key encrypted_document : List Nat) :
    Except RpcError (List Nat) :=
  let encrypted_document_len := encrypted_document.length
  if encrypted_document_len < INIT_VEC_LEN then
    Except.error invalidCiphertextError
  else
    match into_document_key key with
    | Except.error e => Except.error e
    | Except.ok k =>
      let iv := encrypted_document.drop (encrypted_document_len - INIT_VEC_LEN)
      let ciphertext := encrypted_document.take (encrypted_document_len - INIT_VEC_LEN)
      Except.ok (writeInto (List.replicate (encrypted_document_len - INIT_VEC_LEN) 0)
        (C.decrypt k iv ciphertext))

/-- The summation loop of `decrypt_with_shadow_coefficients`: the running
sum starts from the accumulator and each remaining coefficient is added
with `Secret::add`, propagating the first failure. -/
def sumCoefficients {P S : Type} (M : ECMath P S) : S → List S → Except String S
  | acc, [] => Except.ok acc
  | acc, c :: rest =>
    match M.secretAdd acc c with
    | Except.error e => Except.error e
    | Except.ok acc2 => sumCoefficients M acc2 rest

/-- `decrypt_with_shadow_coefficients`: seed the coefficient sum with
`shadow_coefficients[0]` (a panic — `none` — on an empty vector), add the
remaining coefficients, multiply the common point by the sum, add the
product to the decrypted shadow, mapping each arithmetic failure to
`encryptionError`. -/
def decrypt_with_shadow_coefficients {P S : Type} (M : ECMath P S)
    (decrypted_shadow common_shadow_point : P) (shadow_coefficients : List S) :
    Option (Except RpcError P) :=
  match shadow_coefficients with
  | [] => none
  | c0 :: rest =>
    some (match sumCoefficients M c0 rest with
      | Except.error e => Except.error (RpcError.encryptionError e)
      | Except.ok shadow_coefficients_sum =>
        match M.publicMulSecret common_shadow_point shadow_coefficients_sum with
        | Except.error e => Except.error (RpcError.encryptionError e)
        | Except.ok mul_result =>
          match M.publicAdd decrypted_shadow mul_result with
          | Except.error e => Except.error (RpcError.encryptionError e)
          | Except.ok combined => Except.ok combined)

/-- `decrypt_document_with_shadow`: combine the shadows into a point and
run `decrypt_document` on its 64-byte encoding (`key.to_vec()`);
a panic in the combination propagates as `none`. -/
def decrypt_document_with_shadow {P S : Type} (M : ECMath P S) (C : Cipher)
    (decrypted_secret common_point : P) (shadows : List S)
    (encrypted_document : List Nat) : Option (Except RpcError (List Nat)) :=
  match decrypt_with_shadow_coefficients M decrypted_secret common_point shadows with
  | none => none
  | some (Except.error e) => some (Except.error e)
  | some (Except.ok key) => some (decrypt_document C (M.toBytes key) encrypted_document)

/-- Spec-side description of the shadow combination (§4.4): sum all
coefficients in order starting from the first (a monadic left fold),
then multiply the common point by the fully computed sum, then add the
product to the decrypted shadow.  Stated independently of the source
embedding so the two can be compared. -/
def combineSpec {P S : Type} (M : ECMath P S)
    (decrypted_shadow common_point : P) (c0 : S) (rest : List S) :
    Except RpcError P :=
  match rest.foldlM M.secretAdd c0 with
  | Except.error e => Except.error (RpcError.encryptionError e)
  | Except.ok total =>
    match M.publicMulSecret common_point total with
    | Except.error e => Except.error (RpcError.encryptionError e)
    | Except.ok product =>
      match M.publicAdd decrypted_shadow product with
      | Except.error e => Except.error (RpcError.encryptionError e)
      | Except.ok combined => Except.ok combined

/-- Identity cipher: a concrete `Cipher` that is length-preserving and
round-tripping, used to instantiate universally quantified theorems. -/
def idCipher : Cipher where
  encrypt := fun _ _ p => p
  decrypt := fun _ _ c => c

/-- Trivial elliptic-curve arithmetic on `Unit`, used to instantiate
universally quantified theorems. -/
def unitMath : ECMath Unit Unit where
  secretAdd := fun _ _ => Except.ok ()
  publicMulSecret := fun _ _ => Except.ok ()
  publicAdd := fun _ _ => Except.ok ()
  toBytes := fun _ => List.replicate 64 0

theorem writeInto_length (dest src : List Nat) :
    (writeInto dest src).length = dest.length := by
  simp [writeInto]
  omega

theorem writeInto_eq_self (dest src : List Nat) (h : src.length = dest.length) :
    writeInto dest src = src := by
  unfold writeInto
  rw [← h, List.take_length, List.drop_eq_nil_of_le (le_of_eq h.symm), List.append_nil]

/-- Claim C5: for a 64-byte input, the derived symmetric key is exactly the
first 16 bytes of the buffer; no other transform is applied. -/
theorem into_document_key_takes_prefix (key : List Nat) (h : key.length = 64) :
    into_document_key key = Except.ok (key.take 16) := by
  simp [into_document_key, h, INIT_VEC_LEN]

theorem into_document_key_takes_prefix_witness :
    (List.replicate 64 7).length = 64 ∧
      into_document_key (List.replicate 64 7) =
        Except.ok ((List.replicate 64 7).take 16) :=
  ⟨by simp, into_document_key_takes_prefix (List.replicate 64 7) (by simp)⟩

/-- Claim C8: for every key material and every buffer strictly shorter than
16 bytes, `decrypt_document` fails with the invalid-ciphertext error. -/
theorem decrypt_document_short_buffer (C : Cipher) (key buffer : List Nat)
    (h : buffer.length < 16) :
    decrypt_document C key buffer = Except.error invalidCiphertextError := by
  simp [decrypt_document, INIT_VEC_LEN, h]

theorem decrypt_document_short_buffer_witness :
    ([5, 6] : List Nat).length < 16 ∧
      decrypt_document idCipher [] [5, 6] = Except.error invalidCiphertextError :=
  ⟨by decide, decrypt_document_short_buffer idCipher [] [5, 6] (by decide)⟩

/-- Claim C10: in `decrypt_document` the buffer-length check precedes key
derivation: with a wrong-length key and a short buffer the call fails with
the invalid-ciphertext error, which is distinct from the key-length error. -/
theorem decrypt_document_buffer_check_first (C : Cipher) (key buffer : List Nat)
    (hk : key.length ≠ 64) (hb : buffer.length < 16) :
    decrypt_document C key buffer = Except.error invalidCiphertextError ∧
      invalidCiphertextError ≠ invalidKeyLengthError := by
  refine ⟨?_, by simp [invalidCiphertextError, invalidKeyLengthError]⟩
  simp [decrypt_document, INIT_VEC_LEN, hb]

theorem decrypt_document_buffer_check_first_witness :
    ([] : List Nat).length ≠ 64 ∧ ([9] : List Nat).length < 16 ∧
      (decrypt_document idCipher [] [9] = Except.error invalidCiphertextError ∧
        invalidCiphertextError ≠ invalidKeyLengthError) :=
  ⟨by decide, by decide,
    decrypt_document_buffer_check_first idCipher [] [9] (by decide) (by decide)⟩

/-- Claim C9: `encrypt_document` succeeds exactly when the key material is
64 bytes long, and its only possible error is the key-length error. -/
theorem encrypt_document_total (C : Cipher) (rng : Nat → Nat)
    (key document : List Nat) :
    ((∃ r, encrypt_document C rng key document = Except.ok r) ↔ key.length = 64) ∧
      ∀ e, encrypt_document C rng key document = Except.error e →
        e = invalidKeyLengthError := by
  by_cases h : key.length = 64 <;>
    simp [encrypt_document, into_document_key, h]

theorem initialization_vector_length (rng : Nat → Nat) :
    (initialization_vector rng).length = 16 := by
  simp [initialization_vector, INIT_VEC_LEN]

theorem sumCoefficients_eq_foldlM {P S : Type} (M : ECMath P S) (l : List S) :
    ∀ acc, sumCoefficients M acc l = l.foldlM M.secretAdd acc := by
  induction l with
  | nil => intro acc; rfl
  | cons c rest ih =>
    intro acc
    show sumCoefficients M acc (c :: rest) =
      (M.secretAdd acc c >>= fun a => List.foldlM M.secretAdd a rest)
    cases h : M.secretAdd acc c with
    | error e => simp [sumCoefficients, h, Bind.bind, Except.bind]
    | ok acc2 => simp [sumCoefficients, h, Bind.bind, Except.bind, ih acc2]

theorem shadow_coefficients_eq_spec {P S : Type} (M : ECMath P S)
    (decrypted_shadow common_point : P) (c0 : S) (rest : List S) :
    decrypt_with_shadow_coefficients M decrypted_shadow common_point (c0 :: rest) =
      some (combineSpec M decrypted_shadow common_point c0 rest) := by
  simp [decrypt_with_shadow_coefficients, combineSpec,
    sumCoefficients_eq_foldlM M rest c0]

/-- Claim C2: on a non-empty coefficient list, the shadow combination is
exactly the spec's sequence: fold the coefficient additions over the list in
order starting from the first element, then multiply the common point by the
fully computed sum, then add the product to the decrypted shadow. -/
theorem decrypt_with_shadow_coefficients_spec {P S : Type} (M : ECMath P S)
    (decrypted_shadow common_point : P) (c0 : S) (rest : List S) :
    decrypt_with_shadow_coefficients M decrypted_shadow common_point (c0 :: rest) =
      some (combineSpec M decrypted_shadow common_point c0 rest) := by
  simp [decrypt_with_shadow_coefficients, combineSpec,
    sumCoefficients_eq_foldlM M rest c0]

/-- Claim C3: whenever the shadow combination succeeds with point `Q`,
`decrypt_document_with_shadow` returns exactly `decrypt_document` applied to
the point encoding of `Q` and the same encrypted buffer. -/
theorem decrypt_document_with_shadow_refines {P S : Type} (M : ECMath P S)
    (C : Cipher) (decrypted_shadow common_point : P) (coefficients : List S)
    (encrypted : List Nat) (Q : P)
    (hQ : decrypt_with_shadow_coefficients M decrypted_shadow common_point
      coefficients = some (Except.ok Q)) :
    decrypt_document_with_shadow M C decrypted_shadow common_point coefficients
      encrypted = some (decrypt_document C (M.toBytes Q) encrypted) := by
  simp [decrypt_document_with_shadow, hQ]

theorem decrypt_document_with_shadow_refines_witness :
    decrypt_with_shadow_coefficients unitMath () () [()] = some (Except.ok ()) ∧
      decrypt_document_with_shadow unitMath idCipher () () [()] [3, 4] =
        some (decrypt_document idCipher (unitMath.toBytes ()) [3, 4]) :=
  ⟨rfl, decrypt_document_with_shadow_refines unitMath idCipher () () [()] [3, 4] () rfl⟩

/-- Claim C6 (amended): `encrypt_document` and `decrypt_document` are total
(they always return a value or an error), and `decrypt_document_with_shadow`
never panics for any NON-EMPTY coefficient list and any other inputs; on an
empty coefficient list the indexing `shadow_coefficients[0]` panics
(modelled as `none`, shown by the counterexample). -/
theorem operations_no_panic {P S : Type} (M : ECMath P S) (C : Cipher)
    (decrypted_shadow common_point : P) (c0 : S) (rest : List S)
    (encrypted : List Nat) :
    (decrypt_document_with_shadow M C decrypted_shadow common_point
      (c0 :: rest) encrypted).isSome = true := by
  rw [decrypt_document_with_shadow]
  rw [shadow_coefficients_eq_spec M decrypted_shadow common_point c0 rest]
  cases combineSpec M decrypted_shadow common_point c0 rest <;> simp

theorem operations_no_panic_cex :
    decrypt_document_with_shadow unitMath idCipher () () ([] : List Unit) [1] =
      none := rfl

/-- Claim C7 (amended): with key material not 64 bytes long,
`encrypt_document` fails with the key-length error for every plaintext, and
`decrypt_document` fails with the key-length error for every buffer of
length at least 16 (shorter buffers hit the invalid-ciphertext check first,
as the counterexample shows). -/
theorem key_length_guard (C : Cipher) (rng : Nat → Nat) (key : List Nat)
    (hk : key.length ≠ 64) :
    (∀ document,
        encrypt_document C rng key document = Except.error invalidKeyLengthError) ∧
      ∀ buffer, 16 ≤ buffer.length →
        decrypt_document C key buffer = Except.error invalidKeyLengthError := by
  constructor
  · intro document
    simp [encrypt_document, into_document_key, hk]
  · intro buffer hb
    simp [decrypt_document, INIT_VEC_LEN, into_document_key, hk, Nat.not_lt.mpr hb]

theorem key_length_guard_witness :
    ([] : List Nat).length ≠ 64 ∧
      encrypt_document idCipher (fun _ => 0) [] [1] =
        Except.error invalidKeyLengthError ∧
      16 ≤ (List.replicate 16 0 : List Nat).length ∧
      decrypt_document idCipher [] (List.replicate 16 0) =
        Except.error invalidKeyLengthError :=
  ⟨by decide,
    (key_length_guard idCipher (fun _ => 0) [] (by decide)).1 [1],
    by simp,
    (key_length_guard idCipher (fun _ => 0) [] (by decide)).2
      (List.replicate 16 0) (by simp)⟩

theorem key_length_guard_cex :
    ([] : List Nat).length ≠ 64 ∧ ([] : List Nat).length < 16 ∧
      decrypt_document idCipher [] [] = Except.error invalidCiphertextError ∧
      invalidCiphertextError ≠ invalidKeyLengthError :=
  ⟨by decide, by decide, rfl, by decide⟩

/-- Claim C4: for a 64-byte key and length-preserving cipher, the buffer
returned by `encrypt_document` has length `len(P) + 16`, its trailing 16
bytes are the generated initialization vector, and its first `len(P)` bytes
are the cipher's output. -/
theorem encrypt_document_framing (C : Cipher) (rng : Nat → Nat)
    (key document : List Nat) (hk : key.length = 64)
    (hlen : ∀ k iv p, (C.encrypt k iv p).length = p.length) :
    ∃ buffer, encrypt_document C rng key document = Except.ok buffer ∧
      buffer.length = document.length + 16 ∧
      buffer.drop document.length = initialization_vector rng ∧
      buffer.take document.length =
        C.encrypt (key.take 16) (initialization_vector rng) document := by
  have hct : writeInto (List.replicate document.length 0)
      (C.encrypt (key.take 16) (initialization_vector rng) document) =
      C.encrypt (key.take 16) (initialization_vector rng) document :=
    writeInto_eq_self _ _ (by simp [hlen])
  have hlct : (C.encrypt (key.take 16) (initialization_vector rng) document).length
      = document.length := hlen _ _ _
  refine ⟨C.encrypt (key.take 16) (initialization_vector rng) document ++
    initialization_vector rng, ?_, ?_, ?_, ?_⟩
  · simp [encrypt_document, into_document_key, hk, INIT_VEC_LEN, hct]
  · simp [hlct, initialization_vector_length]
  · rw [← hlct]
    exact List.drop_left _ _
  · rw [← hlct]
    exact List.take_left _ _

theorem encrypt_document_framing_witness :
    (List.replicate 64 0 : List Nat).length = 64 ∧
      ∃ buffer,
        encrypt_document idCipher (fun _ => 0) (List.replicate 64 0) [1, 2] =
          Except.ok buffer ∧
        buffer.length = ([1, 2] : List Nat).length + 16 ∧
        buffer.drop ([1, 2] : List Nat).length = initialization_vector (fun _ => 0) ∧
        buffer.take ([1, 2] : List Nat).length =
          idCipher.encrypt ((List.replicate 64 0).take 16)
            (initialization_vector (fun _ => 0)) [1, 2] :=
  ⟨by simp,
    encrypt_document_framing idCipher (fun _ => 0) (List.replicate 64 0) [1, 2]
      (by simp) (fun _ _ _ => rfl)⟩

/-- Claim C1: with 64-byte key material and a length-preserving,
round-tripping cipher, decrypting an encrypted document returns the
original plaintext. -/
theorem encrypt_decrypt_round_trip (C : Cipher) (rng : Nat → Nat)
    (key document : List Nat) (hk : key.length = 64)
    (hlen : ∀ k iv p, (C.encrypt k iv p).length = p.length)
    (hrt : ∀ k iv p, C.decrypt k iv (C.encrypt k iv p) = p) :
    ∀ encrypted, encrypt_document C rng key document = Except.ok encrypted →
      decrypt_document C key encrypted = Except.ok document := by
  intro encrypted henc
  have hct : writeInto (List.replicate document.length 0)
      (C.encrypt (key.take 16) (initialization_vector rng) document) =
      C.encrypt (key.take 16) (initialization_vector rng) document :=
    writeInto_eq_self _ _ (by simp [hlen])
  have henc' : encrypt_document C rng key document =
      Except.ok (C.encrypt (key.take 16) (initialization_vector rng) document ++
        initialization_vector rng) := by
    simp [encrypt_document, into_document_key, hk, INIT_VEC_LEN, hct]
  rw [henc'] at henc
  have hbuf := (Except.ok.injEq _ _).mp henc
  subst hbuf
  set iv := initialization_vector rng with hivdef
  set ct := C.encrypt (key.take 16) iv document with hctdef
  have hdec : C.decrypt (key.take 16) iv ct = document := hrt _ _ _
  have hlct : ct.length = document.length := hlen _ _ _
  have hliv : iv.length = 16 := initialization_vector_length rng
  have hcond : ¬((ct ++ iv).length < INIT_VEC_LEN) := by
    simp [INIT_VEC_LEN, hliv]
  have harith : (ct ++ iv).length - INIT_VEC_LEN = ct.length := by
    simp [INIT_VEC_LEN, hliv]
  simp only [decrypt_document]
  rw [if_neg hcond, harith, List.drop_left, List.take_left]
  have hkey : into_document_key key = Except.ok (key.take 16) := by
    simp [into_document_key, hk, INIT_VEC_LEN]
  rw [hkey]
  show Except.ok (writeInto (List.replicate ct.length 0)
    (C.decrypt (List.take 16 key) iv ct)) = Except.ok document
  rw [hdec, writeInto_eq_self _ _ (by simp [hlct])]

theorem encrypt_decrypt_round_trip_witness :
    (List.replicate 64 0 : List Nat).length = 64 ∧
      decrypt_document idCipher (List.replicate 64 0)
        ([1, 2, 3] ++ initialization_vector (fun _ => 0)) = Except.ok [1, 2, 3] :=
  ⟨by simp,
    encrypt_decrypt_round_trip idCipher (fun _ => 0) (List.replicate 64 0)
      [1, 2, 3] (by simp) (fun _ _ _ => rfl) (fun _ _ _ => rfl)
      ([1, 2, 3] ++ initialization_vector (fun _ => 0)) rfl⟩

end SecretStore
